import Mathlib

/-!
Shallow embedding of `src/biolearn/DNAm_Age_Relationships.py`.

The source is a single class `DNAMethylationAnalyzer` holding two pandas
DataFrames:

* `methylation_data`: first column `cpgSite` (probe identifier, a string that
  can itself be missing/NaN in a CSV), remaining columns one per sample, cells
  are methylation levels that may be missing (NaN).
* `metadata`: one row per sample with a `SampleID` column, an `Age` column and
  arbitrary categorical fields.

Modelling choices:

* A missing cell (pandas NaN) is `none : Option ℚ`; methylation levels are
  rationals (the claims under study compare and order values, they never need
  transcendental functions).
* The matrix is a list of rows `(cpgSite?, cells)` whose cells are positional,
  aligned with the stored list of sample-column names, exactly as a DataFrame
  aligns rows with its column index.
* Statistical library calls whose value the source merely forwards
  (`scipy.stats.ttest_ind` p-values, `scipy.stats.pearsonr`, sklearn fits) are
  parameters of the corresponding definitions: the source never inspects them
  beyond `p_value < threshold` (where a NaN comparison is `False`, modelled by
  `Option ℚ` with `none` for NaN).
* pandas raising `KeyError` on a label lookup miss is `Except.error (.keyError k)`.
  The spec's error taxonomy also names `GroupNotFoundError` and
  `ProbeNotFoundError`; those constructors exist in `Err` so that claims about
  them can be stated, but no code path of the source constructs them.
* `DataFrame.mean()` follows pandas' column-wise semantics with the
  non-numeric `cpgSite` column excluded from the aggregation (legacy
  `numeric_only` behaviour, under which the program runs at all), and skips
  NaN; a column with no available values has a NaN mean, and `fillna` with a
  NaN fill value leaves cells unchanged.
-/

namespace Biolearn

/-- Errors: `keyError` is pandas' `KeyError` on a failed label lookup.
`groupNotFoundError` and `probeNotFoundError` are the error classes named by
the design document; the source code never raises them, they are present only
so that statements about them can be written. -/
inductive Err where
  | keyError (key : String)
  | groupNotFoundError
  | probeNotFoundError
deriving DecidableEq

/-- One cell of the methylation matrix: `none` is pandas NaN. -/
abbrev Cell := Option ℚ

/-- One row of the methylation matrix: the `cpgSite` identifier cell (itself
possibly NaN) and the sample cells, positionally aligned with `sampleIds`. -/
abbrev MRow := Option String × List Cell

/-- The `methylation_data` DataFrame. -/
structure MethylationData where
  sampleIds : List String
  rows : List MRow
deriving DecidableEq

/-- One row of the `metadata` DataFrame: `SampleID`, `Age`, and the categorical
fields as an association list from field name to value. -/
structure MetaRow where
  sampleId : String
  age : ℚ
  fields : List (String × String)
deriving DecidableEq

/-- The two instance attributes of `DNAMethylationAnalyzer`. -/
structure AnalyzerState where
  methylation_data : MethylationData
  metadata : List MetaRow
deriving DecidableEq

/-- `Series.dropna()`: the available (non-missing) values, in order. -/
def dropnaList (l : List Cell) : List ℚ := l.filterMap id

/-- Mean of a list of available values; `none` (NaN) when the list is empty,
as pandas' NaN-skipping mean of an all-NaN column. -/
def listMean (l : List ℚ) : Option ℚ :=
  if l = [] then none else some (l.sum / l.length)

/-- pandas sample variance (`ddof=1`, skipna) of a list of available values:
NaN (`none`) when fewer than two values are available. -/
def sampleVar (l : List ℚ) : Option ℚ :=
  if l.length ≤ 1 then none
  else some ((l.map (fun x => (x - l.sum / l.length) ^ 2)).sum / ((l.length : ℚ) - 1))

/-- The comparison `p < threshold` on a possibly-NaN left operand: in
Python/numpy, `nan < t` is `False`. -/
def optLtQ (p : Option ℚ) (t : ℚ) : Bool :=
  match p with
  | none => false
  | some v => decide (v < t)

/-! ## preprocess_data

Source lines 13-20:
`self.methylation_data.dropna(how='all', inplace=True)` — drops a row when
EVERY cell of the row, the `cpgSite` identifier cell included, is NaN;
`self.methylation_data.fillna(self.methylation_data.mean(), inplace=True)` —
`DataFrame.mean()` is COLUMN-wise (one mean per sample column, skipping NaN,
the non-numeric `cpgSite` column excluded), and `fillna` with that Series
fills each NaN cell with its own column's mean, leaving it NaN when the
column's mean is itself NaN. -/

/-- Predicate of `dropna(how='all')`: every cell of the row, identifier
included, is missing. -/
def rowAllMissing (r : MRow) : Bool :=
  r.1.isNone && r.2.all Option.isNone

/-- The available values of column `j` across the given rows. -/
def colValues (rows : List MRow) (j : ℕ) : List ℚ :=
  rows.filterMap (fun r => (r.2.get? j).getD none)

/-- Column-wise mean, as `DataFrame.mean()` computes it per sample column. -/
def colMean (rows : List MRow) (j : ℕ) : Option ℚ :=
  listMean (colValues rows j)

/-- `fillna` on a single cell with fill value `m` (NaN fill value leaves a NaN
cell in place). -/
def fillCell (m : Option ℚ) : Cell → Cell
  | some v => some v
  | none => m

/-- `fillna` across the cells of one row, column `j` onward, with column-wise
fill values `mu`. -/
def fillCells (mu : ℕ → Option ℚ) : ℕ → List Cell → List Cell
  | _, [] => []
  | j, c :: cs => fillCell (mu j) c :: fillCells mu (j + 1) cs

/-- `fillna` on one row; the non-numeric `cpgSite` cell is not filled. -/
def fillRow (mu : ℕ → Option ℚ) (r : MRow) : MRow :=
  (r.1, fillCells mu 0 r.2)

/-- The row transformation of `preprocess_data`: drop the rows whose every
cell is NaN, then fill each remaining NaN cell with its column's mean over the
kept rows (the means are those of the frame after the in-place `dropna`). -/
def cleanRows (rows : List MRow) : List MRow :=
  let kept := rows.filter (fun r => ! rowAllMissing r)
  kept.map (fillRow (colMean kept))

/-- `preprocess_data` (source lines 13-20): `dropna(how='all', inplace=True)`
then `fillna(self.methylation_data.mean(), inplace=True)` on the stored
matrix. -/
def preprocess_data (md : MethylationData) : MethylationData :=
  { md with rows := cleanRows md.rows }

/-! ## identify_stable_cpg_sites

Source lines 22-34: `variances = self.methylation_data.iloc[:, 1:].var(axis=1)`
(per-row sample variance over the sample columns, `ddof=1`, skipping NaN, NaN
when fewer than two values are available), then
`self.methylation_data[variances < threshold]['cpgSite'].tolist()` (rows whose
variance compares below the threshold — NaN compares `False` — keeping matrix
row order). The default threshold in the source is `0.01`. -/

/-- Per-row variance of a matrix row over its sample cells. -/
def rowVariance (r : MRow) : Option ℚ :=
  sampleVar (dropnaList r.2)

/-- `identify_stable_cpg_sites` (source lines 22-34). -/
def identify_stable_cpg_sites (md : MethylationData) (threshold : ℚ) : List (Option String) :=
  (md.rows.filter (fun r => optLtQ (rowVariance r) threshold)).map Prod.fst

/-- Stated from the spec's words, for comparison with the source: the probes
whose per-row variance is DEFINED (at least two available values) and strictly
below the threshold, in matrix row order. -/
def stableSitesSpec (md : MethylationData) (threshold : ℚ) : List (Option String) :=
  (md.rows.filter
    (fun r => decide (2 ≤ (dropnaList r.2).length) && optLtQ (rowVariance r) threshold)).map
    Prod.fst

/-! ## identify_significant_cpg_sites

Source lines 36-65. Group membership comes from the metadata
(`self.metadata[self.metadata[group_field] == group1]['SampleID'].tolist()`);
then for every matrix row, in order, the two groups' cells are selected by
sample-column label (`row[group1_samples]`, a lookup that raises `KeyError`
when a label is not a column), NaN-dropped, handed to
`scipy.stats.ttest_ind(..., equal_var=False)` (Welch), and the probe
identifier is appended when `p_value < p_value_threshold` (a NaN p-value
compares `False`). The source has no `GroupNotFoundError` check: an empty
group is passed straight to the t-test. Default threshold `0.05`.

`ttest` is a parameter standing for the Welch p-value returned by
`scipy.stats.ttest_ind(g1, g2, equal_var=False)`, with `none` for NaN. -/

/-- Field lookup inside one metadata row. -/
def lookupStr (fields : List (String × String)) (k : String) : Option String :=
  (fields.find? (fun p => p.1 == k)).map Prod.snd

/-- Sample IDs of the rows whose `group_field` equals the given value
(source lines 47-48). -/
def groupSamples (meta : List MetaRow) (field value : String) : List String :=
  (meta.filter (fun m => lookupStr m.fields field == some value)).map MetaRow.sampleId

/-- Position of a sample name in the matrix's column index. -/
def indexOfCol (s : String) : List String → Option ℕ
  | [] => none
  | c :: cs => if c == s then some 0 else (indexOfCol s cs).map (· + 1)

/-- Label-based cell lookup, as `row[label]`: `KeyError` when the label is not
a column of the matrix. -/
def lookupCell (cols : List String) (cells : List Cell) (name : String) : Except Err Cell :=
  match indexOfCol name cols with
  | none => .error (.keyError name)
  | some j => .ok ((cells.get? j).getD none)

/-- Total variant of the cell lookup for the spec-side statement: an absent
column reads as a missing value. -/
def cellAtName (cols : List String) (cells : List Cell) (name : String) : Cell :=
  match indexOfCol name cols with
  | none => none
  | some j => (cells.get? j).getD none

/-- `row[labels]`: the cells at a list of sample labels, `KeyError` when a
label is absent from the matrix's columns. -/
def selectCells (cols : List String) (cells : List Cell) : List String → Except Err (List Cell)
  | [] => .ok []
  | n :: ns =>
    match lookupCell cols cells n with
    | .error e => .error e
    | .ok v =>
      match selectCells cols cells ns with
      | .error e => .error e
      | .ok vs => .ok (v :: vs)

/-- The `for index, row in self.methylation_data.iterrows()` loop of source
lines 53-63, with the running `significant_cpg_sites` accumulator. -/
def sigLoop (ttest : List ℚ → List ℚ → Option ℚ) (cols g1s g2s : List String) (thr : ℚ) :
    List MRow → List (Option String) → Except Err (List (Option String))
  | [], acc => .ok acc
  | r :: rs, acc =>
    match selectCells cols r.2 g1s, selectCells cols r.2 g2s with
    | .ok c1, .ok c2 =>
      if optLtQ (ttest (dropnaList c1) (dropnaList c2)) thr then
        sigLoop ttest cols g1s g2s thr rs (acc ++ [r.1])
      else
        sigLoop ttest cols g1s g2s thr rs acc
    | .error e, _ => .error e
    | .ok _, .error e => .error e

/-- `identify_significant_cpg_sites` (source lines 36-65). -/
def identify_significant_cpg_sites (ttest : List ℚ → List ℚ → Option ℚ)
    (md : MethylationData) (meta : List MetaRow) (field g1 g2 : String) (thr : ℚ) :
    Except Err (List (Option String)) :=
  sigLoop ttest md.sampleIds (groupSamples meta field g1) (groupSamples meta field g2)
    thr md.rows []

/-- One group's available values for one probe row. -/
def groupVals (cols : List String) (cells : List Cell) (names : List String) : List ℚ :=
  dropnaList (names.map (cellAtName cols cells))

/-- Stated from the spec's words, for comparison with the source: exactly the
probe identifiers whose Welch p-value over the two groups' available values is
strictly below the threshold, in matrix row order. -/
def significantSitesSpec (ttest : List ℚ → List ℚ → Option ℚ)
    (md : MethylationData) (meta : List MetaRow) (field g1 g2 : String) (thr : ℚ) :
    List (Option String) :=
  (md.rows.filter (fun r =>
    optLtQ (ttest (groupVals md.sampleIds r.2 (groupSamples meta field g1))
                  (groupVals md.sampleIds r.2 (groupSamples meta field g2))) thr)).map
    Prod.fst

/-! ## plot_cpg_against_age and visualize_correlation_with_age

Source lines 67-142. `self.methylation_data.set_index('cpgSite').loc[cpg_site]`
raises a pandas `KeyError` when no row carries the requested identifier
(`set_index` is not in-place; the stored frame is untouched). The merge with
the metadata is an inner join of the row's per-sample values with the metadata
on `SampleID`. The sklearn fits and the Pearson coefficient are parameters:
the source only forwards them into the rendered charts / returned mapping. -/

/-- One rendered matplotlib figure: title, scatter points `(age, methylation)`
(a missing methylation cell stays in the data and is simply not drawn), and
the overlaid fitted curve, when any. -/
structure Chart where
  title : String
  points : List (ℚ × Cell)
  fitLine : List (ℚ × ℚ)
deriving DecidableEq

/-- `pd.merge(cpg_data.reset_index(), metadata, left_on='index',
right_on='SampleID')`: inner join, left (sample-column) order. -/
def mergeWithMeta (sampleIds : List String) (cells : List Cell) (meta : List MetaRow) :
    List (ℚ × Cell) :=
  (sampleIds.zip cells).flatMap
    (fun p => (meta.filter (fun m => m.sampleId == p.1)).map (fun m => (m.age, p.2)))

/-- `plot_cpg_against_age` (source lines 67-110): `linpred` and `polypred`
stand for the sklearn linear and degree-2 polynomial fit predictions. Returns
the (two) rendered charts, or the lookup error before anything is rendered. -/
def plot_cpg_against_age (linpred polypred : List (ℚ × Cell) → List (ℚ × ℚ))
    (md : MethylationData) (meta : List MetaRow) (cpg_site : String) :
    Except Err (List Chart) :=
  match md.rows.find? (fun r => r.1 == some cpg_site) with
  | none => .error (.keyError cpg_site)
  | some row =>
    let merged := mergeWithMeta md.sampleIds row.2 meta
    .ok [⟨"CpG Site " ++ cpg_site ++ " Methylation vs Age (Linear Relationship)",
          merged, linpred merged⟩,
         ⟨"CpG Site " ++ cpg_site ++ " Methylation vs Age (Non-Linear Relationship)",
          merged, polypred merged⟩]

/-- `visualize_correlation_with_age` (source lines 112-142): `pearson` stands
for `scipy.stats.pearsonr` (`none` for NaN). Returns the accumulated
probe-to-coefficient mapping (in insertion order) and the rendered charts; a
missing probe aborts with the lookup `KeyError`. -/
def visualize_correlation_with_age (pearson : List (ℚ × Cell) → Option ℚ)
    (md : MethylationData) (meta : List MetaRow) :
    List String → Except Err (List (String × Option ℚ) × List Chart)
  | [] => .ok ([], [])
  | c :: cs =>
    match md.rows.find? (fun r => r.1 == some c) with
    | none => .error (.keyError c)
    | some row => do
      let merged := mergeWithMeta md.sampleIds row.2 meta
      let corr := pearson merged
      let (rest, charts) ← visualize_correlation_with_age pearson md meta cs
      .ok ((c, corr) :: rest,
           (⟨"CpG Site " ++ c ++ " Methylation vs Age", merged, []⟩ : Chart) :: charts)

/-! ## Method-level wrappers on the analyzer state

Each method of the class, as a function of the stored state, returning the
state the analyzer holds afterwards alongside the method's result. Only
`preprocess_data` uses pandas' `inplace=True` operations; every other method
reads `self.methylation_data` / `self.metadata` through non-mutating
operations (`var`, boolean masks, `iterrows`, a non-in-place `set_index`,
`merge`), so their embedding returns the fields it was handed. -/

/-- The state held after a call that may have raised: an exception propagates
out of the method body with the stored attributes as they were. -/
def resultState {α : Type} (s : AnalyzerState) : Except Err (AnalyzerState × α) → AnalyzerState
  | .ok (s', _) => s'
  | .error _ => s

/-- `preprocess_data` at the level of the analyzer state (the one method using
in-place mutation). -/
def preprocess_data_method (s : AnalyzerState) : AnalyzerState :=
  { s with methylation_data := preprocess_data s.methylation_data }

/-- `identify_stable_cpg_sites` at the level of the analyzer state. -/
def identify_stable_method (s : AnalyzerState) (threshold : ℚ) :
    AnalyzerState × List (Option String) :=
  (s, identify_stable_cpg_sites s.methylation_data threshold)

/-- `identify_significant_cpg_sites` at the level of the analyzer state. -/
def identify_significant_method (ttest : List ℚ → List ℚ → Option ℚ)
    (s : AnalyzerState) (field g1 g2 : String) (thr : ℚ) :
    Except Err (AnalyzerState × List (Option String)) :=
  (identify_significant_cpg_sites ttest s.methylation_data s.metadata field g1 g2 thr).map
    (fun l => (s, l))

/-- `plot_cpg_against_age` at the level of the analyzer state. -/
def plot_cpg_method (linpred polypred : List (ℚ × Cell) → List (ℚ × ℚ))
    (s : AnalyzerState) (cpg_site : String) : Except Err (AnalyzerState × List Chart) :=
  (plot_cpg_against_age linpred polypred s.methylation_data s.metadata cpg_site).map
    (fun c => (s, c))

/-- `visualize_correlation_with_age` at the level of the analyzer state. -/
def visualize_correlation_method (pearson : List (ℚ × Cell) → Option ℚ)
    (s : AnalyzerState) (cpgs : List String) :
    Except Err (AnalyzerState × (List (String × Option ℚ) × List Chart)) :=
  (visualize_correlation_with_age pearson s.methylation_data s.metadata cpgs).map
    (fun c => (s, c))

/-! ## Concrete instances used by witnesses and counterexamples -/

/-- Stand-in for the scipy Welch p-value on concrete data: scipy's documented
NaN on a group with fewer than two observations; on larger groups a fixed
arbitrary stand-in value (no claim under test depends on the numeric p-value
of a non-degenerate test). -/
def ttestStub (a b : List ℚ) : Option ℚ :=
  if a.length ≤ 1 ∨ b.length ≤ 1 then none else some (1 / 100)

/-- Trivial stand-in for a fitted-curve prediction. -/
def fitStub (_ : List (ℚ × Cell)) : List (ℚ × ℚ) := []

/-- A 2×2 matrix with one missing cell: row `cg1` has available values `{1/10}`
(row mean `1/10`), while the column of the missing cell has available values
`{1/2}` (column mean `1/2`). -/
def exMd2 : MethylationData :=
  ⟨["s1", "s2"],
   [(some "cg1", [some (1/10), none]),
    (some "cg2", [some (3/10), some (1/2)])]⟩

/-- A matrix whose row `cg1` has a present identifier but every sample cell
missing. -/
def exMd3 : MethylationData :=
  ⟨["s1"], [(some "cg1", [none]), (some "cg2", [some (1/2)])]⟩

/-- A one-sample, one-probe matrix. -/
def exMd4 : MethylationData := ⟨["s1"], [(some "cg1", [some (1/2)])]⟩

/-- Metadata for the single sample `s1`, whose `DiseaseState` is `None`. -/
def exMeta4 : List MetaRow := [⟨"s1", 30, [("DiseaseState", "None")]⟩]

/-- Metadata with two samples in group `a` and two in group `b` of field `G`. -/
def wMeta : List MetaRow :=
  [⟨"s1", 30, [("G", "a")]⟩, ⟨"s2", 40, [("G", "a")]⟩,
   ⟨"s3", 50, [("G", "b")]⟩, ⟨"s4", 60, [("G", "b")]⟩]

/-- A four-sample, one-probe matrix matching `wMeta`. -/
def wMd : MethylationData :=
  ⟨["s1", "s2", "s3", "s4"],
   [(some "cg1", [some (1/10), some (2/10), some (8/10), some (9/10)])]⟩

/-- Metadata with two samples in group `a` and a single sample in group `b`. -/
def wMeta7 : List MetaRow :=
  [⟨"s1", 30, [("G", "a")]⟩, ⟨"s2", 40, [("G", "a")]⟩, ⟨"s3", 50, [("G", "b")]⟩]

/-- A three-sample, one-probe matrix matching `wMeta7`. -/
def wMd7 : MethylationData :=
  ⟨["s1", "s2", "s3"], [(some "cg1", [some (1/10), some (2/10), some (8/10)])]⟩

/-- A two-sample matrix whose single probe row is constant. -/
def wMdC6 : MethylationData :=
  ⟨["s1", "s2"], [(some "cgK", [some (1/2), some (1/2)])]⟩

/-! ## Lemmas: stable sites -/

theorem rowVariance_none_of_short (r : MRow) (h : (dropnaList r.2).length ≤ 1) :
    rowVariance r = none := by
  simp [rowVariance, sampleVar, if_pos h]

theorem rowVariance_nonneg (r : MRow) (v : ℚ) (h : rowVariance r = some v) : 0 ≤ v := by
  unfold rowVariance sampleVar at h
  split at h
  · exact absurd h (by simp)
  · rename_i hlen
    have h2 : 2 ≤ (dropnaList r.2).length := by omega
    have hden : (0:ℚ) ≤ ((dropnaList r.2).length : ℚ) - 1 := by
      have : (2:ℚ) ≤ ((dropnaList r.2).length : ℚ) := by exact_mod_cast h2
      linarith
    have hsum : (0:ℚ) ≤
        ((dropnaList r.2).map
          (fun x => (x - (dropnaList r.2).sum / (dropnaList r.2).length) ^ 2)).sum := by
      refine List.sum_nonneg ?_
      intro x hx
      rcases List.mem_map.1 hx with ⟨y, _, rfl⟩
      positivity
    have hnn := div_nonneg hsum hden
    injection h with h
    rw [h] at hnn
    exact hnn

theorem sampleVar_replicate (n : ℕ) (hn : 2 ≤ n) (v : ℚ) :
    sampleVar (List.replicate n v) = some 0 := by
  have hnq : ((n:ℚ)) ≠ 0 := by positivity
  have hlen : ¬ (List.replicate n v).length ≤ 1 := by simp; omega
  have hsum : (List.replicate n v).sum = (n:ℚ) * v := by
    simp [List.sum_replicate, nsmul_eq_mul]
  have hmean : (List.replicate n v).sum / ((List.replicate n v).length : ℚ) = v := by
    rw [hsum]
    simp [mul_comm, mul_div_assoc, div_self hnq]
  unfold sampleVar
  rw [if_neg hlen]
  congr 1
  have : ((List.replicate n v).map
      (fun x => (x - (List.replicate n v).sum / ((List.replicate n v).length : ℚ)) ^ 2)) =
      List.replicate n ((v - (List.replicate n v).sum / ((List.replicate n v).length : ℚ)) ^ 2) := by
    simp [List.map_replicate]
  rw [this, hmean]
  simp

theorem stable_eq_spec (md : MethylationData) (t : ℚ) :
    identify_stable_cpg_sites md t = stableSitesSpec md t := by
  unfold identify_stable_cpg_sites stableSitesSpec
  congr 1
  refine List.filter_congr ?_
  intro r _
  by_cases h : (dropnaList r.2).length ≤ 1
  · rw [rowVariance_none_of_short r h]
    have : ¬ (2 ≤ (dropnaList r.2).length) := by omega
    simp [optLtQ, this]
  · have h2 : 2 ≤ (dropnaList r.2).length := by omega
    simp [h2]

/-! ## Claim theorems: stable sites -/

/-- C6: for every matrix and threshold, `identify_stable_cpg_sites` returns
exactly the probe identifiers whose per-row sample variance is defined (at
least two available values) and strictly below the threshold, in matrix row
order; and a row whose every sample cell holds the same value (at least two
sample columns) is included for every positive threshold. -/
theorem claim_C6 (md : MethylationData) (t : ℚ) :
    identify_stable_cpg_sites md t = stableSitesSpec md t ∧
    (∀ r ∈ md.rows, ∀ v : ℚ, r.2 = List.replicate md.sampleIds.length (some v) →
      2 ≤ md.sampleIds.length → 0 < t → r.1 ∈ identify_stable_cpg_sites md t) := by
  constructor
  · exact stable_eq_spec md t
  · intro r hr v hcells hn ht
    have hdrop : dropnaList r.2 = List.replicate md.sampleIds.length v := by
      rw [hcells]
      simp [dropnaList, List.filterMap_replicate]
    have hvar : rowVariance r = some 0 := by
      unfold rowVariance
      rw [hdrop]
      exact sampleVar_replicate _ hn v
    unfold identify_stable_cpg_sites
    refine List.mem_map_of_mem Prod.fst (List.mem_filter.mpr ⟨hr, ?_⟩)
    simp [optLtQ, hvar, ht]

/-- C6 witness: on a concrete two-sample matrix with a constant probe row the
characterization holds and the constant row is reported stable at threshold 1. -/
theorem claim_C6_witness :
    identify_stable_cpg_sites wMdC6 1 = stableSitesSpec wMdC6 1 ∧
    some "cgK" ∈ identify_stable_cpg_sites wMdC6 1 :=
  ⟨(claim_C6 wMdC6 1).1,
   (claim_C6 wMdC6 1).2 (some "cgK", [some (1/2), some (1/2)]) (by simp [wMdC6])
     (1/2) rfl (by simp [wMdC6]) one_pos⟩

/-- C10: `identify_stable_cpg_sites` is monotone in its threshold — a smaller
threshold's output is a sublist (same elements, same relative order) of a
larger threshold's — and any threshold at most 0 yields the empty list. -/
theorem claim_C10 (md : MethylationData) (t1 t2 : ℚ) (h12 : t1 ≤ t2) :
    List.Sublist (identify_stable_cpg_sites md t1) (identify_stable_cpg_sites md t2) ∧
    (t1 ≤ 0 → identify_stable_cpg_sites md t1 = []) := by
  constructor
  · unfold identify_stable_cpg_sites
    refine List.Sublist.map Prod.fst (List.monotone_filter_right _ ?_)
    intro r hrt
    cases hv : rowVariance r with
    | none => rw [hv] at hrt; simp [optLtQ] at hrt
    | some v =>
      rw [hv] at hrt
      simp only [optLtQ, decide_eq_true_eq] at hrt ⊢
      exact lt_of_lt_of_le hrt h12
  · intro ht
    unfold identify_stable_cpg_sites
    rw [List.filter_eq_nil_iff.mpr ?_]
    · rfl
    · intro r _
      cases hv : rowVariance r with
      | none => simp [optLtQ]
      | some v =>
        have hvn := rowVariance_nonneg r v hv
        simp only [optLtQ, decide_eq_true_eq]
        intro hlt
        linarith

/-- C10 witness: concrete instantiation at thresholds 0 ≤ 1 on the constant
matrix, with the empty-output conclusion discharged at threshold 0. -/
theorem claim_C10_witness :
    List.Sublist (identify_stable_cpg_sites wMdC6 0) (identify_stable_cpg_sites wMdC6 1) ∧
    identify_stable_cpg_sites wMdC6 0 = [] :=
  ⟨(claim_C10 wMdC6 0 1 zero_le_one).1, (claim_C10 wMdC6 0 1 zero_le_one).2 le_rfl⟩

/-! ## Lemmas: significant sites -/

theorem indexOfCol_isSome (s : String) (cols : List String) (h : s ∈ cols) :
    (indexOfCol s cols).isSome := by
  induction cols with
  | nil => simp at h
  | cons c cs ih =>
    unfold indexOfCol
    by_cases hc : (c == s) = true
    · simp [hc]
    · have : s ∈ cs := by
        rcases List.mem_cons.1 h with h | h
        · exact absurd (by simp [h]) hc
        · exact h
      simp only [hc, if_neg]
      simp [Option.isSome_map]
      have := ih this
      simpa [Option.isSome_iff_exists] using this

theorem lookupCell_ok (cols : List String) (cells : List Cell) (s : String) (h : s ∈ cols) :
    lookupCell cols cells s = .ok (cellAtName cols cells s) := by
  unfold lookupCell cellAtName
  cases hidx : indexOfCol s cols with
  | none =>
    have := indexOfCol_isSome s cols h
    rw [hidx] at this
    simp at this
  | some j => rfl

theorem selectCells_ok (cols : List String) (cells : List Cell) (names : List String)
    (h : ∀ s ∈ names, s ∈ cols) :
    selectCells cols cells names = .ok (names.map (cellAtName cols cells)) := by
  induction names with
  | nil => rfl
  | cons n ns ih =>
    unfold selectCells
    rw [lookupCell_ok cols cells n (h n (List.mem_cons_self n ns)),
        ih (fun s hs => h s (List.mem_cons_of_mem n hs))]
    rfl

/-- The per-row significance test of the source's loop, phrased as a filter
predicate. -/
def sigPred (ttest : List ℚ → List ℚ → Option ℚ) (cols g1s g2s : List String) (thr : ℚ)
    (r : MRow) : Bool :=
  optLtQ (ttest (groupVals cols r.2 g1s) (groupVals cols r.2 g2s)) thr

theorem sigLoop_eq (ttest : List ℚ → List ℚ → Option ℚ) (cols g1s g2s : List String)
    (thr : ℚ) (h1 : ∀ s ∈ g1s, s ∈ cols) (h2 : ∀ s ∈ g2s, s ∈ cols)
    (rows : List MRow) (acc : List (Option String)) :
    sigLoop ttest cols g1s g2s thr rows acc =
      .ok (acc ++ (rows.filter (sigPred ttest cols g1s g2s thr)).map Prod.fst) := by
  induction rows generalizing acc with
  | nil => simp [sigLoop]
  | cons r rs ih =>
    unfold sigLoop
    rw [selectCells_ok cols r.2 g1s h1, selectCells_ok cols r.2 g2s h2]
    simp only
    by_cases hp : sigPred ttest cols g1s g2s thr r = true
    · have hp' : optLtQ (ttest (dropnaList (g1s.map (cellAtName cols r.2)))
          (dropnaList (g2s.map (cellAtName cols r.2)))) thr = true := hp
      rw [if_pos hp', ih (acc ++ [r.1])]
      simp [List.filter_cons, hp]
    · have hp' : ¬ optLtQ (ttest (dropnaList (g1s.map (cellAtName cols r.2)))
          (dropnaList (g2s.map (cellAtName cols r.2)))) thr = true := hp
      rw [if_neg hp', ih acc]
      simp [List.filter_cons, Bool.of_not_eq_true hp]

theorem identify_significant_eq_spec (ttest : List ℚ → List ℚ → Option ℚ)
    (md : MethylationData) (meta : List MetaRow) (field g1 g2 : String) (thr : ℚ)
    (h1 : ∀ s ∈ groupSamples meta field g1, s ∈ md.sampleIds)
    (h2 : ∀ s ∈ groupSamples meta field g2, s ∈ md.sampleIds) :
    identify_significant_cpg_sites ttest md meta field g1 g2 thr =
      .ok (significantSitesSpec ttest md meta field g1 g2 thr) := by
  unfold identify_significant_cpg_sites significantSitesSpec
  rw [sigLoop_eq ttest md.sampleIds _ _ thr h1 h2 md.rows []]
  rfl

/-! ## Claim theorems: significant sites -/

/-- C1: whenever the two categories each match at least one sample (and the
metadata's sample IDs are columns of the matrix, the data-model invariant),
`identify_significant_cpg_sites` returns exactly the probe identifiers whose
Welch p-value (`ttest`, the `scipy.stats.ttest_ind(..., equal_var=False)`
p-value with `none` for NaN) over the two groups' available values is strictly
below the caller's threshold, in matrix row order. -/
theorem claim_C1 (ttest : List ℚ → List ℚ → Option ℚ)
    (md : MethylationData) (meta : List MetaRow) (field g1 g2 : String) (thr : ℚ)
    (h1 : ∀ s ∈ groupSamples meta field g1, s ∈ md.sampleIds)
    (h2 : ∀ s ∈ groupSamples meta field g2, s ∈ md.sampleIds)
    (_hne1 : groupSamples meta field g1 ≠ [])
    (_hne2 : groupSamples meta field g2 ≠ []) :
    identify_significant_cpg_sites ttest md meta field g1 g2 thr =
      .ok (significantSitesSpec ttest md meta field g1 g2 thr) :=
  identify_significant_eq_spec ttest md meta field g1 g2 thr h1 h2

/-- C1 witness: concrete four-sample metadata with two samples per group. -/
theorem claim_C1_witness :
    (∀ s ∈ groupSamples wMeta "G" "a", s ∈ wMd.sampleIds) ∧
    (∀ s ∈ groupSamples wMeta "G" "b", s ∈ wMd.sampleIds) ∧
    groupSamples wMeta "G" "a" ≠ [] ∧
    groupSamples wMeta "G" "b" ≠ [] ∧
    identify_significant_cpg_sites ttestStub wMd wMeta "G" "a" "b" (1/20) =
      .ok (significantSitesSpec ttestStub wMd wMeta "G" "a" "b" (1/20)) :=
  ⟨by decide, by decide, by decide, by decide,
   claim_C1 ttestStub wMd wMeta "G" "a" "b" (1/20)
     (by decide) (by decide) (by decide) (by decide)⟩

/-- C7: a probe row at which either group has at most one available value gets
a NaN p-value from scipy (`httest` is that documented scipy behaviour); the
call neither raises nor includes that probe in its result (probe identifiers
assumed distinct across rows). -/
theorem claim_C7 (ttest : List ℚ → List ℚ → Option ℚ)
    (md : MethylationData) (meta : List MetaRow) (field g1 g2 : String) (thr : ℚ)
    (r : MRow)
    (httest : ∀ a b : List ℚ, a.length ≤ 1 ∨ b.length ≤ 1 → ttest a b = none)
    (h1 : ∀ s ∈ groupSamples meta field g1, s ∈ md.sampleIds)
    (h2 : ∀ s ∈ groupSamples meta field g2, s ∈ md.sampleIds)
    (hr : r ∈ md.rows)
    (hdeg : (groupVals md.sampleIds r.2 (groupSamples meta field g1)).length ≤ 1 ∨
            (groupVals md.sampleIds r.2 (groupSamples meta field g2)).length ≤ 1)
    (hnodup : (md.rows.map Prod.fst).Nodup) :
    ∃ l, identify_significant_cpg_sites ttest md meta field g1 g2 thr = .ok l ∧
      r.1 ∉ l := by
  refine ⟨significantSitesSpec ttest md meta field g1 g2 thr,
    identify_significant_eq_spec ttest md meta field g1 g2 thr h1 h2, ?_⟩
  intro hmem
  unfold significantSitesSpec at hmem
  rcases List.mem_map.1 hmem with ⟨r', hr', hfst⟩
  rcases List.mem_filter.1 hr' with ⟨hr'rows, hpred⟩
  have hrr : r' = r :=
    List.inj_on_of_nodup_map hnodup hr'rows hr hfst
  rw [hrr] at hpred
  rw [httest _ _ hdeg] at hpred
  simp [optLtQ] at hpred

/-- C7 witness: group `b` of `wMeta7` has one sample, so probe `cg1` is not
reported; the stub p-value follows scipy's NaN-on-degenerate-group contract. -/
theorem claim_C7_witness :
    (∀ a b : List ℚ, a.length ≤ 1 ∨ b.length ≤ 1 → ttestStub a b = none) ∧
    ((some "cg1", [some ((1:ℚ)/10), some (2/10), some (8/10)]) : MRow) ∈ wMd7.rows ∧
    (groupVals wMd7.sampleIds [some ((1:ℚ)/10), some (2/10), some (8/10)]
        (groupSamples wMeta7 "G" "b")).length ≤ 1 ∧
    ∃ l, identify_significant_cpg_sites ttestStub wMd7 wMeta7 "G" "a" "b" (1/20) = .ok l ∧
      (some "cg1" : Option String) ∉ l :=
  ⟨fun a b h => if_pos h, by simp [wMd7], by decide,
   claim_C7 ttestStub wMd7 wMeta7 "G" "a" "b" (1/20)
     ((some "cg1", [some ((1:ℚ)/10), some (2/10), some (8/10)]))
     (fun a b h => if_pos h) (by decide) (by decide) (by simp [wMd7])
     (Or.inr (by decide)) (by decide)⟩

/-- C4 counterexample: the source has no `GroupNotFoundError` check. With
`exMeta4` no sample has `DiseaseState = COVID`, yet the call returns
`Except.ok []` — a (here empty) list — instead of raising. -/
theorem claim_C4_counterexample :
    identify_significant_cpg_sites ttestStub exMd4 exMeta4 "DiseaseState" "COVID" "None"
      (1/20) = Except.ok [] ∧
    (Except.ok ([] : List (Option String)) : Except Err (List (Option String))) ≠
      Except.error Err.groupNotFoundError :=
  ⟨rfl, fun h => Except.noConfusion h⟩

/-- C4 amended: when either requested category value matches zero samples,
`identify_significant_cpg_sites` does not raise `GroupNotFoundError`; it
silently returns the empty list (scipy's t-test on an empty group yields a NaN
p-value, `hEmpty`, which never clears the threshold). -/
theorem claim_C4_amended (ttest : List ℚ → List ℚ → Option ℚ)
    (md : MethylationData) (meta : List MetaRow) (field g1 g2 : String) (thr : ℚ)
    (hEmpty : ∀ a b : List ℚ, a = [] ∨ b = [] → ttest a b = none)
    (h1 : ∀ s ∈ groupSamples meta field g1, s ∈ md.sampleIds)
    (h2 : ∀ s ∈ groupSamples meta field g2, s ∈ md.sampleIds)
    (hzero : groupSamples meta field g1 = [] ∨ groupSamples meta field g2 = []) :
    identify_significant_cpg_sites ttest md meta field g1 g2 thr = .ok [] := by
  rw [identify_significant_eq_spec ttest md meta field g1 g2 thr h1 h2]
  unfold significantSitesSpec
  rw [List.filter_eq_nil_iff.mpr ?_]
  · rfl
  · intro r _
    have hnone : ttest (groupVals md.sampleIds r.2 (groupSamples meta field g1))
        (groupVals md.sampleIds r.2 (groupSamples meta field g2)) = none := by
      refine hEmpty _ _ ?_
      rcases hzero with h | h
      · exact Or.inl (by simp [h, groupVals, dropnaList])
      · exact Or.inr (by simp [h, groupVals, dropnaList])
    rw [hnone]
    simp [optLtQ]

/-- C4 amended witness: the concrete call of the counterexample, through the
amended theorem. -/
theorem claim_C4_amended_witness :
    (∀ a b : List ℚ, a = [] ∨ b = [] → ttestStub a b = none) ∧
    (groupSamples exMeta4 "DiseaseState" "COVID" = [] ∨
      groupSamples exMeta4 "DiseaseState" "None" = []) ∧
    identify_significant_cpg_sites ttestStub exMd4 exMeta4 "DiseaseState" "COVID" "None"
      (1/20) = .ok [] :=
  ⟨fun a b h => if_pos (h.imp (fun ha => by simp [ha]) (fun hb => by simp [hb])),
   Or.inl (by decide),
   claim_C4_amended ttestStub exMd4 exMeta4 "DiseaseState" "COVID" "None" (1/20)
     (fun a b h => if_pos (h.imp (fun ha => by simp [ha]) (fun hb => by simp [hb])))
     (by decide) (by decide) (Or.inl (by decide))⟩

/-! ## Lemmas: preprocessing -/

theorem fillCell_none (c : Cell) : fillCell none c = c := by cases c <;> rfl

theorem fillCells_get? (mu : ℕ → Option ℚ) (cs : List Cell) (j0 i : ℕ) :
    (fillCells mu j0 cs).get? i = (cs.get? i).map (fillCell (mu (j0 + i))) := by
  induction cs generalizing j0 i with
  | nil => simp [fillCells]
  | cons c cs ih =>
    cases i with
    | zero => simp [fillCells]
    | succ i =>
      simp only [fillCells, List.get?_cons_succ]
      rw [ih (j0 + 1) i]
      have hj : j0 + 1 + i = j0 + (i + 1) := by omega
      rw [hj]

theorem fillCells_all_isNone (mu : ℕ → Option ℚ) (cs : List Cell) (j0 : ℕ)
    (h : (fillCells mu j0 cs).all Option.isNone = true) : cs.all Option.isNone = true := by
  induction cs generalizing j0 with
  | nil => rfl
  | cons c cs ih =>
    simp only [fillCells, List.all_cons, Bool.and_eq_true] at h ⊢
    refine ⟨?_, ih (j0 + 1) h.2⟩
    cases c with
    | some v => simpa [fillCell] using h.1
    | none => rfl

theorem rowAllMissing_fillRow (mu : ℕ → Option ℚ) (r : MRow)
    (h : rowAllMissing (fillRow mu r) = true) : rowAllMissing r = true := by
  unfold rowAllMissing fillRow at h
  unfold rowAllMissing
  simp only [Bool.and_eq_true] at h ⊢
  exact ⟨h.1, fillCells_all_isNone mu r.2 0 h.2⟩

theorem listMean_eq_none (l : List ℚ) : listMean l = none ↔ l = [] := by
  unfold listMean
  split <;> simp_all

theorem colMean_eq_none (rows : List MRow) (j : ℕ) :
    colMean rows j = none ↔ colValues rows j = [] := by
  unfold colMean
  exact listMean_eq_none _

theorem colValues_fill (kept : List MRow) (mu : ℕ → Option ℚ) (j : ℕ) (h : mu j = none) :
    colValues (kept.map (fillRow mu)) j = colValues kept j := by
  induction kept with
  | nil => rfl
  | cons r rs ih =>
    unfold colValues at ih ⊢
    simp only [List.map_cons, List.filterMap_cons]
    have hr : (((fillRow mu r).2).get? j).getD none = (r.2.get? j).getD none := by
      show ((fillCells mu 0 r.2).get? j).getD none = _
      rw [fillCells_get?, Nat.zero_add, h]
      cases hg : r.2.get? j with
      | none => rfl
      | some c => simp [fillCell_none]
    rw [hr]
    cases hv : (r.2.get? j).getD none with
    | none => exact ih
    | some v => rw [ih]

theorem colMean_fill_none (kept : List MRow) (j : ℕ) (h : colMean kept j = none) :
    colMean (kept.map (fillRow (colMean kept))) j = none := by
  have hj : colMean kept j = none := h
  rw [colMean_eq_none] at h ⊢
  rw [colValues_fill kept (colMean kept) j hj]
  exact h

theorem fillCells_idem (mu1 mu2 : ℕ → Option ℚ)
    (h : ∀ j, mu1 j = none → mu2 j = none) (cs : List Cell) (j0 : ℕ) :
    fillCells mu2 j0 (fillCells mu1 j0 cs) = fillCells mu1 j0 cs := by
  induction cs generalizing j0 with
  | nil => rfl
  | cons c cs ih =>
    simp only [fillCells]
    rw [ih (j0 + 1)]
    congr 1
    cases c with
    | some v => rfl
    | none =>
      show fillCell (mu2 j0) (mu1 j0) = mu1 j0
      cases hm : mu1 j0 with
      | some m => rfl
      | none =>
        show mu2 j0 = none
        exact h j0 hm

theorem filter_fill_eq (kept : List MRow) (mu : ℕ → Option ℚ)
    (h : ∀ r ∈ kept, rowAllMissing r = false) :
    (kept.map (fillRow mu)).filter (fun r => ! rowAllMissing r) = kept.map (fillRow mu) := by
  refine List.filter_eq_self.mpr ?_
  intro r hr
  rcases List.mem_map.1 hr with ⟨r0, hr0, rfl⟩
  cases hfm : rowAllMissing (fillRow mu r0) with
  | false => simp
  | true =>
    have := rowAllMissing_fillRow mu r0 hfm
    rw [h r0 hr0] at this
    exact absurd this (by simp)

theorem map_fill_idem (kept : List MRow) :
    (kept.map (fillRow (colMean kept))).map
      (fillRow (colMean (kept.map (fillRow (colMean kept))))) =
    kept.map (fillRow (colMean kept)) := by
  rw [List.map_map]
  exact List.map_congr_left
    (fun a _ => congrArg (Prod.mk a.1)
      (fillCells_idem (colMean kept) (colMean (kept.map (fillRow (colMean kept))))
        (colMean_fill_none kept) a.2 0))

theorem cleanRows_idem (rows : List MRow) : cleanRows (cleanRows rows) = cleanRows rows := by
  have hmem : ∀ r ∈ rows.filter (fun r => ! rowAllMissing r), rowAllMissing r = false := by
    intro r hr
    have := List.of_mem_filter hr
    simpa using this
  show ((cleanRows rows).filter (fun r => ! rowAllMissing r)).map
      (fillRow (colMean ((cleanRows rows).filter (fun r => ! rowAllMissing r)))) =
      cleanRows rows
  have h1 : (cleanRows rows).filter (fun r => ! rowAllMissing r) = cleanRows rows :=
    filter_fill_eq _ _ hmem
  rw [h1]
  exact map_fill_idem _

/-! ## Claim theorems: preprocessing -/

/-- C2 (code defect, evaluated at the failing input): the source comment says
the fill value is "the mean value for each CpG site" (the row mean), but
`DataFrame.mean()` is column-wise. On `exMd2` the missing cell of row `cg1`
(row mean `1/10`) is filled with its COLUMN's mean `1/2`. -/
theorem claim_C2 :
    preprocess_data exMd2 =
      ⟨["s1", "s2"],
       [(some "cg1", [some (1/10), some (1/2)]),
        (some "cg2", [some (3/10), some (1/2)])]⟩ ∧
    ((1:ℚ)/2 ≠ 1/10) := by
  constructor
  · norm_num [preprocess_data, cleanRows, exMd2, rowAllMissing, fillRow, fillCells,
      fillCell, colMean, colValues, listMean, List.get?, List.filterMap_cons,
      List.filterMap_nil]
  · norm_num

/-- C3 counterexample: row `cg1` of `exMd3` has a present identifier and every
non-identifier (sample) cell missing. The claim says preprocessing removes it;
the code's `dropna(how='all')` also looks at the identifier cell, so the row
survives (and is then imputed from its column's mean). -/
theorem claim_C3_counterexample :
    exMd3.rows.get? 0 = some (some "cg1", [none]) ∧
    ((some ("cg1" : String), [(none : Cell)]) : MRow).2.all Option.isNone = true ∧
    (preprocess_data exMd3).rows.map Prod.fst = [some "cg1", some "cg2"] :=
  ⟨rfl, rfl, rfl⟩

/-- C3 amended: `dropna(how='all')` removes exactly the rows in which EVERY
cell — the `cpgSite` identifier cell included — is missing; a row with a
present identifier is kept even when all its sample cells are missing. The
surviving rows keep their identifiers and order; sample columns are
untouched. -/
theorem claim_C3_amended (md : MethylationData) :
    (preprocess_data md).rows.map Prod.fst =
      (md.rows.filter (fun r => ! rowAllMissing r)).map Prod.fst ∧
    (preprocess_data md).sampleIds = md.sampleIds := by
  constructor
  · show (cleanRows md.rows).map Prod.fst = _
    unfold cleanRows
    rw [List.map_map]
    rfl
  · rfl

/-- C8: `preprocess_data` is idempotent — a second run right after a first one
leaves the stored methylation matrix exactly unchanged. -/
theorem claim_C8 (md : MethylationData) :
    preprocess_data (preprocess_data md) = preprocess_data md := by
  show (⟨md.sampleIds, cleanRows (cleanRows md.rows)⟩ : MethylationData) =
    ⟨md.sampleIds, cleanRows md.rows⟩
  rw [cleanRows_idem]

/-! ## Claim theorems: plotting errors and the frame condition -/

/-- C5 counterexample: the identifier `cg404` is absent from `exMd4`, and
`plot_cpg_against_age` fails with the pandas lookup `KeyError` — which is not
the `ProbeNotFoundError` the claim names (no code path constructs that error);
the error return carries no rendered chart. -/
theorem claim_C5_counterexample :
    plot_cpg_against_age fitStub fitStub exMd4 exMeta4 "cg404" =
      Except.error (Err.keyError "cg404") ∧
    Err.keyError "cg404" ≠ Err.probeNotFoundError :=
  ⟨rfl, fun h => Err.noConfusion h⟩

/-- C5 amended: for every probe identifier absent from the matrix,
`plot_cpg_against_age` raises the underlying lookup `KeyError` (not a
`ProbeNotFoundError`) and renders no chart — the failure happens at the
`set_index('cpgSite').loc[...]` lookup, before any figure is produced. -/
theorem claim_C5_amended (linpred polypred : List (ℚ × Cell) → List (ℚ × ℚ))
    (md : MethylationData) (meta : List MetaRow) (cpg : String)
    (h : ∀ r ∈ md.rows, r.1 ≠ some cpg) :
    plot_cpg_against_age linpred polypred md meta cpg = .error (.keyError cpg) := by
  have hfind : md.rows.find? (fun r => r.1 == some cpg) = none := by
    refine List.find?_eq_none.mpr ?_
    intro r hr
    simp only [beq_iff_eq]
    exact h r hr
  unfold plot_cpg_against_age
  rw [hfind]

/-- C5 amended witness: the concrete missing probe `cg404` on `exMd4`. -/
theorem claim_C5_amended_witness :
    (∀ r ∈ exMd4.rows, r.1 ≠ some "cg404") ∧
    plot_cpg_against_age fitStub fitStub exMd4 exMeta4 "cg404" =
      .error (.keyError "cg404") :=
  ⟨by decide, claim_C5_amended fitStub fitStub exMd4 exMeta4 "cg404" (by decide)⟩

/-- The state a method returns when its body wraps a pure computation around
the untouched instance attributes. -/
theorem resultState_map {α : Type} (s : AnalyzerState) (e : Except Err α) :
    resultState s (e.map (fun x => (s, x))) = s := by
  cases e <;> rfl

/-- C9: none of the four query methods mutates the stored tables — each leaves
the analyzer state (methylation matrix and metadata) exactly as it found it,
whether it returns normally or raises; only `preprocess_data` rewrites the
stored matrix. -/
theorem claim_C9 (s : AnalyzerState) (t thr : ℚ) (field g1 g2 cpg : String)
    (cpgs : List String) (ttest : List ℚ → List ℚ → Option ℚ)
    (linpred polypred : List (ℚ × Cell) → List (ℚ × ℚ))
    (pearson : List (ℚ × Cell) → Option ℚ) :
    (identify_stable_method s t).1 = s ∧
    resultState s (identify_significant_method ttest s field g1 g2 thr) = s ∧
    resultState s (plot_cpg_method linpred polypred s cpg) = s ∧
    resultState s (visualize_correlation_method pearson s cpgs) = s :=
  ⟨rfl,
   resultState_map s (identify_significant_cpg_sites ttest s.methylation_data s.metadata
     field g1 g2 thr),
   resultState_map s (plot_cpg_against_age linpred polypred s.methylation_data s.metadata cpg),
   resultState_map s (visualize_correlation_with_age pearson s.methylation_data s.metadata cpgs)⟩

end Biolearn
